import Mathlib

/-!
Verification of the backfill daemon and declarative freshness-check subsystem.

The development shallowly embeds the Python sources:
  * `_daemon/backfill.py` (backfill iteration loop),
  * `_core/definitions/asset_check_factories/freshness_checks/time_partition.py`
    (time-partition freshness checks),
  * `_core/definitions/metadata/metadata_set.py` (namespaced metadata sets),
  * `_core/definitions/factory/section.py` (section op-name hashing).

Machine timestamps are modelled as `Nat` seconds since the epoch; Python strings are
modelled as `String` or `List Char`; code that can raise is modelled with `Except`.
-/

/-! ### Backfill daemon: `dagster/_daemon/backfill.py` -/

/-- `BulkActionStatus` from `dagster._core.execution.backfill`. -/
inductive BulkActionStatus
  | REQUESTED
  | COMPLETED
  | FAILED
  | CANCELED
  | CANCELING
  | COMPLETED_WITH_FAILURES
deriving DecidableEq

/-- A structured serializable error record (`SerializableErrorInfo`), modelled opaquely. -/
abbrev ErrInfo := Nat

/-- The fields of `PartitionBackfill` that the daemon loop reads or writes. -/
structure PartitionBackfill where
  backfill_id : Nat
  status : BulkActionStatus
  error : Option ErrInfo
  is_asset_backfill : Bool
deriving DecidableEq

/-- `PartitionBackfill.with_status`: copy with a new status. -/
def with_status (b : PartitionBackfill) (s : BulkActionStatus) : PartitionBackfill :=
  { b with status := s }

/-- `PartitionBackfill.with_error`: copy with a captured error. -/
def with_error (b : PartitionBackfill) (e : ErrInfo) : PartitionBackfill :=
  { b with error := some e }

/-- The instance's persisted backfill table, keyed by backfill id
(`instance.get_backfill(backfill_id)` reads it; `instance.update_backfill` writes it). -/
abbrev Store := Nat → PartitionBackfill

/-- `instance.update_backfill(backfill)`: persist the record under its backfill id. -/
def update_backfill (store : Store) (b : PartitionBackfill) : Store :=
  fun i => if i = b.backfill_id then b else store i

/-- The values yielded by one backfill iteration (`Optional[SerializableErrorInfo]`). -/
abbrev BackfillIterOut := List (Option ErrInfo)

/-- The shape of `execute_asset_backfill_iteration` / `execute_job_backfill_iteration` as
called by the daemon loop: given the (re-fetched) backfill record and the current persisted
state, it yields some outputs and then either returns normally with the updated state, or
raises; a raise carries the state as mutated up to the point of the raise. -/
abbrev BackfillIterateFn :=
  PartitionBackfill → Store → BackfillIterOut × Except (Store × ErrInfo) Store

/-- `execute_backfill_jobs` from `_daemon/backfill.py`: for each job in order, re-fetch the
backfill record by id, dispatch on `is_asset_backfill`, and on an unhandled exception capture
the error, persist the backfill as FAILED with the captured error, yield the error info, and
continue with the remaining jobs. -/
def execute_backfill_jobs (itA itJ : BackfillIterateFn) :
    Store → List PartitionBackfill → Store × BackfillIterOut
  | store, [] => (store, [])
  | store, j :: rest =>
    match (if (store j.backfill_id).is_asset_backfill
        then itA (store j.backfill_id) store else itJ (store j.backfill_id) store) with
    | (outs, Except.ok s1) =>
      ((execute_backfill_jobs itA itJ s1 rest).1,
        outs ++ (execute_backfill_jobs itA itJ s1 rest).2)
    | (outs, Except.error se) =>
      ((execute_backfill_jobs itA itJ
          (update_backfill se.1
            (with_error (with_status (store j.backfill_id) BulkActionStatus.FAILED) se.2))
          rest).1,
        outs ++ some se.2 ::
          (execute_backfill_jobs itA itJ
            (update_backfill se.1
              (with_error (with_status (store j.backfill_id) BulkActionStatus.FAILED) se.2))
            rest).2)

/-- The body of one turn of the `execute_backfill_jobs` loop, with the record fetched for
this turn made explicit as the `bf` argument: everything after the re-fetch
`backfill = instance.get_backfill(backfill_id)` uses only `bf`, never the job snapshot. -/
def process_backfill_job (itA itJ : BackfillIterateFn) (store : Store)
    (bf : PartitionBackfill) (rest : List PartitionBackfill) : Store × BackfillIterOut :=
  match (if bf.is_asset_backfill then itA bf store else itJ bf store) with
  | (outs, Except.ok s1) =>
    ((execute_backfill_jobs itA itJ s1 rest).1,
      outs ++ (execute_backfill_jobs itA itJ s1 rest).2)
  | (outs, Except.error se) =>
    ((execute_backfill_jobs itA itJ
        (update_backfill se.1 (with_error (with_status bf BulkActionStatus.FAILED) se.2))
        rest).1,
      outs ++ some se.2 ::
        (execute_backfill_jobs itA itJ
          (update_backfill se.1 (with_error (with_status bf BulkActionStatus.FAILED) se.2))
          rest).2)

/-- `instance.get_backfills(status=s)`: the persisted backfills with the given status. -/
def get_backfills (backfills : List PartitionBackfill) (s : BulkActionStatus) :
    List PartitionBackfill :=
  backfills.filter (fun b => decide (b.status = s))

/-- The job list of one pass of `execute_backfill_iteration`:
`[*in_progress_backfills, *canceling_backfills]`. -/
def backfill_jobs_for_pass (backfills : List PartitionBackfill) : List PartitionBackfill :=
  get_backfills backfills BulkActionStatus.REQUESTED ++
    get_backfills backfills BulkActionStatus.CANCELING

/-- `execute_backfill_iteration` from `_daemon/backfill.py`: load REQUESTED and CANCELING
backfills; if none, yield a single `None`; otherwise run `execute_backfill_jobs` on their
concatenation. -/
def execute_backfill_iteration (itA itJ : BackfillIterateFn)
    (backfills : List PartitionBackfill) (store : Store) : Store × BackfillIterOut :=
  if (get_backfills backfills BulkActionStatus.REQUESTED).isEmpty &&
      (get_backfills backfills BulkActionStatus.CANCELING).isEmpty then
    (store, [none])
  else
    execute_backfill_jobs itA itJ store (backfill_jobs_for_pass backfills)

/-- Modelled from the spec: `execute_asset_backfill_iteration` is not under src/. Per the
spec, "Canceling backfills iterate only far enough to let in-flight runs drain, then
transition to CANCELED once no runs remain outstanding." The model takes the number of
outstanding runs per backfill id as a parameter; for a CANCELING backfill it persists status
CANCELED exactly when no runs remain outstanding, and otherwise leaves the record unchanged.
Paths for non-canceling backfills are modelled as no-ops on status, which is all that the
claims about canceling backfills consume. The modelled iteration raises no exception. -/
def asset_backfill_iteration_model (outstanding : Nat → Nat) : BackfillIterateFn :=
  fun bf store =>
    ([none],
      Except.ok
        (if bf.status = BulkActionStatus.CANCELING ∧ outstanding bf.backfill_id = 0 then
          update_backfill store (with_status bf BulkActionStatus.CANCELED)
        else store))

/-- Concrete CANCELING backfill used to exercise the failure path. -/
def canceling_backfill : PartitionBackfill :=
  ⟨7, BulkActionStatus.CANCELING, none, true⟩

/-- Concrete persisted table holding only `canceling_backfill`. -/
def canceling_store : Store := fun _ => canceling_backfill

/-- A backfill iteration that raises immediately (an unhandled exception with error id 3),
without having yielded anything or mutated the store. -/
def always_raising_iteration : BackfillIterateFn :=
  fun _ store => ([], Except.error (store, 3))

/-! ### Time-partition freshness checks:
`_core/definitions/asset_check_factories/freshness_checks/time_partition.py` -/

/-- The partition scheme of a target asset, as dispatched on by
`check.inst(..., TimeWindowPartitionsDefinition)`. The time-window case is instantiated at
the daily midnight-aligned UTC definition, which is the scheme the spec's worked example
uses; the other case stands for every non-time-window partitions definition. -/
inductive PartitionsDefModel
  | dailyMidnightUTC
  | nonTimeWindow
deriving DecidableEq

/-- Modelled from the spec: `get_prev_partition_window` (in
`time_window_partitions.py`, not under src/) for a daily midnight-aligned UTC partitions
definition. Per the spec it "maps a tick to the partition window that must have arrived by
that tick, defined as the most recently completed partition window ending at or before the
tick". For daily windows the window ending at or before `tick` ends at midnight of
`tick`'s day, so the window is the previous calendar day. -/
def prev_daily_partition_window (tick : Nat) : Nat × Nat :=
  ((tick / 86400 - 1) * 86400, (tick / 86400) * 86400)

/-- Modelled from the spec: `get_latest_completed_cron_tick` (in `_utils/schedules.py`, not
under src/) for the daily cron "0 9 * * *" in timezone UTC: "returns the most recent tick
strictly ≤ now"; per the spec's edge case a boundary hit counts as passed. 32400 is the
09:00 offset in seconds. -/
def latest_completed_daily9_tick (now : Nat) : Nat :=
  if 32400 ≤ now % 86400 then now - now % 86400 + 32400
  else now - now % 86400 - 86400 + 32400

/-- Modelled from the spec: `get_next_cron_tick` — "first tick strictly > now" — for the
daily cron "0 9 * * *" in timezone UTC. -/
def next_daily9_tick (now : Nat) : Nat :=
  if now % 86400 < 32400 then now - now % 86400 + 32400
  else now - now % 86400 + 86400 + 32400

/-- The composition in `TimePartitionFreshnessCheckSet.execute` (src lines 100-111): the
deadline is the latest completed cron tick, and the expected partition key is the start of
the most recently completed partition window before that deadline. -/
def expected_partition_start (now : Nat) : Nat :=
  (prev_daily_partition_window (latest_completed_daily9_tick now)).1

/-- A stored materialization/observation record, reduced to what the check reads: the value
of `get_last_updated_timestamp` for the record, which is absent when an observation record
lacks the last-updated metadata entry (then `check.not_none` raises). -/
structure AssetRecord where
  last_updated : Option Nat
deriving DecidableEq

/-- The state snapshot consumed by `TimePartitionFreshnessCheckSet.execute`: the selected
asset check keys, the asset graph's partitions definitions, the instance's stored records
(`retrieve_latest_record` by asset and optional partition key), the current time, and the
context logger (modelled by its verbosity; advisory only). Asset keys are modelled as
natural numbers. -/
structure FreshnessCheckCtx where
  selected : List Nat
  pdef : Nat → PartitionsDefModel
  records : Nat → Option Nat → Option AssetRecord
  now : Nat
  log_verbosity : Nat

/-- A metadata value occurring in a freshness check result: the params JSON blob or a
timestamp value. -/
inductive FreshnessMetaValue
  | jsonParams (timezone : String) (cron : String)
  | ts (t : Nat)
deriving DecidableEq

/-- An error raised while executing the check set: the `check.inst` failure on a
non-time-window partitions definition, or the `check.not_none` failure on a record with no
last-updated timestamp. -/
inductive CheckErr
  | notTimeWindowPartitioned (asset : Nat)
  | missingLastUpdated (asset : Nat)
deriving DecidableEq

/-- The content of `_construct_description`: which partition was expected, whether the check
passed, and whether any record exists for the asset at all. -/
structure CheckDescription where
  partition_key : Nat
  passed : Bool
  any_records_exist : Bool
deriving DecidableEq

/-- An `AssetCheckResult` as yielded by the freshness check. -/
structure AssetCheckResultModel where
  passed : Bool
  asset : Nat
  severity : Nat
  description : CheckDescription
  metadata : List (String × FreshnessMetaValue)
deriving DecidableEq

/-- The body of `TimePartitionFreshnessCheckSet.execute` for one selected check key
(src lines 91-153), parametric in the resolved cron tick functions: assert the partitions
definition is time-window based, compute the deadline and expected partition, look up the
record for that partition, and build the result with the code's metadata branches. -/
def freshness_check_one (latestTick nextTick : Nat → Nat) (timezone cron : String)
    (severity : Nat) (ctx : FreshnessCheckCtx) (asset : Nat) :
    Except CheckErr AssetCheckResultModel :=
  match ctx.pdef asset with
  | PartitionsDefModel.nonTimeWindow => Except.error (CheckErr.notTimeWindowPartitioned asset)
  | PartitionsDefModel.dailyMidnightUTC =>
    let deadline := latestTick ctx.now
    let window := prev_daily_partition_window deadline
    let expected_key := window.1
    let latest := ctx.records asset (some expected_key)
    let passed := latest.isSome
    let any_record := ctx.records asset none
    let base : List (String × FreshnessMetaValue) :=
      [("dagster/freshness_params", FreshnessMetaValue.jsonParams timezone cron),
       ("dagster/latest_cron_tick", FreshnessMetaValue.ts deadline)]
    let desc : CheckDescription := ⟨expected_key, passed, any_record.isSome⟩
    if passed then
      Except.ok
        ⟨true, asset, severity, desc,
          base ++ [("dagster/fresh_until", FreshnessMetaValue.ts (nextTick ctx.now))]⟩
    else
      match any_record with
      | none => Except.ok ⟨false, asset, severity, desc, base⟩
      | some r =>
        match r.last_updated with
        | none => Except.error (CheckErr.missingLastUpdated asset)
        | some t =>
          Except.ok
            ⟨false, asset, severity, desc,
              base ++ [("dagster/last_updated_time", FreshnessMetaValue.ts t)]⟩

/-- The loop of `TimePartitionFreshnessCheckSet.execute` over the given check keys; an
exception raised for one key propagates out of the generator. -/
def freshness_execute_keys (latestTick nextTick : Nat → Nat) (timezone cron : String)
    (severity : Nat) (ctx : FreshnessCheckCtx) :
    List Nat → Except CheckErr (List AssetCheckResultModel)
  | [] => Except.ok []
  | k :: rest =>
    match freshness_check_one latestTick nextTick timezone cron severity ctx k with
    | Except.error e => Except.error e
    | Except.ok r =>
      match freshness_execute_keys latestTick nextTick timezone cron severity ctx rest with
      | Except.error e => Except.error e
      | Except.ok rs => Except.ok (r :: rs)

/-- `TimePartitionFreshnessCheckSet.execute`: run the per-key body over the selected check
keys. -/
def freshness_check_set_execute (latestTick nextTick : Nat → Nat) (timezone cron : String)
    (severity : Nat) (ctx : FreshnessCheckCtx) : Except CheckErr (List AssetCheckResultModel) :=
  freshness_execute_keys latestTick nextTick timezone cron severity ctx ctx.selected

/-- The construction-time errors of `build_time_partition_freshness_checks`: the
`check.invariant` failure on an invalid cron string, and the `ensure_no_duplicate_assets`
failure (modelled from its call-site contract: it raises when the same asset appears
twice). -/
inductive BuildChecksError
  | invalidCronString
  | duplicateAssets
deriving DecidableEq

/-- The constructed `TimePartitionFreshnessCheckSet`, reduced to its construction
parameters. -/
structure TimePartitionFreshnessCheckSetModel where
  assets : List Nat
  deadline_cron : Option String
  timezone : String
  severity : Nat
deriving DecidableEq

/-- `build_time_partition_freshness_checks` (src lines 225-235), parametric in the external
validator `is_valid_cron_string` from `_utils/schedules.py` (not under src/): the
`check.invariant(deadline_cron is None or is_valid_cron_string(deadline_cron))` runs before
the duplicate-assets check, and on success the check set is constructed. -/
def build_time_partition_freshness_checks (is_valid_cron_string : String → Bool)
    (assets : List Nat) (deadline_cron : Option String) (timezone : String) (severity : Nat) :
    Except BuildChecksError TimePartitionFreshnessCheckSetModel :=
  let cron_ok :=
    match deadline_cron with
    | none => true
    | some s => is_valid_cron_string s
  if cron_ok = false then Except.error BuildChecksError.invalidCronString
  else if assets.Nodup then Except.ok ⟨assets, deadline_cron, timezone, severity⟩
  else Except.error BuildChecksError.duplicateAssets

/-! ### Namespaced metadata sets: `_core/definitions/metadata/metadata_set.py` -/

/-- A Python runtime type relevant to `_extract_value`: either one of the directly wrapped
raw types (str, float, int, bool, TableSchema, ..., indexed by `k`) or the `MetadataValue`
subclass that wraps the raw type `k`. -/
inductive PyType
  | rawT (k : Nat)
  | wrappedT (k : Nat)
deriving DecidableEq

/-- A metadata value as stored in a field or a metadata dictionary: either a raw Python
value of raw type `k`, or a `MetadataValue` instance of kind `k` wrapping a payload whose
`.value` is the corresponding raw value. -/
inductive PyVal
  | raw (k : Nat) (payload : Nat)
  | wrapped (k : Nat) (payload : Nat)
deriving DecidableEq

/-- `type(value)` for a metadata value. -/
def PyVal.type_of : PyVal → PyType
  | PyVal.raw k _ => PyType.rawT k
  | PyVal.wrapped k _ => PyType.wrappedT k

/-- A `NamespacedMetadataSet` subclass, reduced to what `keys`, `__getitem__` and `extract`
consume: its `namespace()` string, its declared `model_fields` in declaration order, and the
flattened annotation types accepted by each field. Field names are modelled as `List Char`
because the code concatenates and splits them against `"/"` characters. Every subclass in
the repository declares its fields either as required or with default `None`; the model
fixes the missing-field default to `none` accordingly. -/
structure MetadataSetClass where
  nspace : List Char
  field_names : List (List Char)
  ann : List Char → List PyType

/-- `_namespaced_key`: `f"{cls.namespace()}/{key}"`. -/
def namespaced_key (cls : MetadataSetClass) (f : List Char) : List Char :=
  cls.nspace ++ '/' :: f

/-- An instance of the subclass: each declared field name paired with its stored value
(`none` models a `None` field). Well-formedness (the names equal `cls.field_names` in
order) is a hypothesis of the theorems. -/
abbrev MetadataSetInstance := List (List Char × Option PyVal)

/-- The entry list `{namespace/field ↦ stored value}` over the fields whose value is not
`None`: the value `dict(m)` evaluates to whenever none of its `__getitem__` calls raises
(see `metadata_set_to_dict` below for the raising path). -/
def namespaced_entries (cls : MetadataSetClass) (values : MetadataSetInstance) :
    List (List Char × PyVal) :=
  values.filterMap (fun fv => fv.2.map (fun v => (namespaced_key cls fv.1, v)))

/-- `_strip_namespace_from_key`: `key.split("/", 1)[1]`, the suffix after the first `"/"`.
Every key built by `_namespaced_key` contains the joining slash, so the `[1]` index is
always defined on the keys `dict(m)` looks up. -/
def strip_namespace_from_key : List Char → List Char
  | [] => []
  | c :: rest => if c = '/' then rest else strip_namespace_from_key rest

/-- `getattr(self, attr)` on the pydantic model: the stored value when `attr` is one of the
declared fields, and `AttributeError` (the `Except.error`) otherwise. The attribute names
reaching this from `__getitem__` are either exactly a declared field (slash-free namespace)
or contain a `"/"` — which no Python attribute of the model can — so dispatching on field
membership is faithful. -/
def metadata_set_getattr (values : MetadataSetInstance) (attr : List Char) :
    Except Unit (Option PyVal) :=
  match values.find? (fun fv => decide (fv.1 = attr)) with
  | some fv => Except.ok fv.2
  | none => Except.error ()

/-- The traversal `{key: m[key] for key in m.keys()}` that `dict(m)` performs, over the
given tail of the field list: for each non-`None` field, `__getitem__` strips everything up
to the first `"/"` from the namespaced key and reads that attribute, propagating its
`AttributeError`. A `None` attribute value here would need a declared field name containing
`"/"`, impossible for a Python identifier; `extract` maps a `None`-valued entry and a
missing entry to the same constructed field, so the model drops it. -/
def metadata_set_dict_entries (cls : MetadataSetClass) (values : MetadataSetInstance) :
    List (List Char × Option PyVal) → Except Unit (List (List Char × PyVal))
  | [] => Except.ok []
  | (_, none) :: rest => metadata_set_dict_entries cls values rest
  | (f, some _) :: rest =>
    match metadata_set_getattr values (strip_namespace_from_key (namespaced_key cls f)) with
    | Except.error e => Except.error e
    | Except.ok none => metadata_set_dict_entries cls values rest
    | Except.ok (some v2) =>
      match metadata_set_dict_entries cls values rest with
      | Except.error e => Except.error e
      | Except.ok tail => Except.ok ((namespaced_key cls f, v2) :: tail)

/-- `dict(m)` of a metadata set, via `keys()` and `__getitem__`; it raises (`Except.error`)
when `__getitem__` does — which happens exactly when stripping the first `"/"`-segment from
a key does not leave a declared field name, e.g. for a namespace containing `"/"`. -/
def metadata_set_to_dict (cls : MetadataSetClass) (values : MetadataSetInstance) :
    Except Unit (List (List Char × PyVal)) :=
  metadata_set_dict_entries cls values values

/-- Python's `key.split("/")` (unlimited splits) on character lists. -/
def split_on_slash : List Char → List (List Char)
  | [] => [[]]
  | c :: rest =>
    if c = '/' then [] :: split_on_slash rest
    else
      match split_on_slash rest with
      | [] => [[c]]
      | s :: ss => (c :: s) :: ss

/-- The entry filter inside `extract`: the key splits into exactly two parts on `"/"`, the
first equals the class namespace and the second is the declared field `f`. -/
def matches_class_field (cls : MetadataSetClass) (f : List Char) (key : List Char) : Bool :=
  match split_on_slash key with
  | [ns, fld] => decide (ns = cls.nspace) && decide (fld = f)
  | _ => false

/-- `_extract_value`: if the value is a `MetadataValue` whose type is not among the field's
accepted annotation types while its inner `.value`'s type is, unwrap it; otherwise return
the value unchanged. -/
def extract_value (cls : MetadataSetClass) (f : List Char) (v : PyVal) : PyVal :=
  match v with
  | PyVal.raw k p => PyVal.raw k p
  | PyVal.wrapped k p =>
    if PyType.wrappedT k ∉ cls.ann f ∧ PyType.rawT k ∈ cls.ann f then PyVal.raw k p
    else PyVal.wrapped k p

/-- `NamespacedMetadataSet.extract`: build the kwargs from the entries whose key splits to
`[namespace, field]` for a declared field, and construct the instance, defaulting every
other field. The input models a Python `Mapping`, whose keys are unique, so the first
matching entry is the only one. -/
def extract (cls : MetadataSetClass) (metadata : List (List Char × PyVal)) :
    MetadataSetInstance :=
  cls.field_names.map (fun f =>
    (f, (metadata.find? (fun kv => matches_class_field cls f kv.1)).map
      (fun kv => extract_value cls f kv.2)))

/-- A subclass whose `namespace()` contains a `"/"`, as the code permits. -/
def slash_namespace_class : MetadataSetClass :=
  ⟨['a', '/', 'b'], [['x']], fun _ => [PyType.rawT 0]⟩

/-- A well-formed instance of `slash_namespace_class` with its one field set. -/
def slash_namespace_instance : MetadataSetInstance :=
  [(['x'], some (PyVal.raw 0 0))]

/-! ### Section op-name hashing: `_core/definitions/factory/section.py` -/

/-- An `AssetKeyOrCheckKey`: an asset key is an ordered sequence of path segments (spec
section 3); a check key pairs the target asset key with the check name. -/
inductive AssetGraphKey
  | assetK (path : List String)
  | checkK (asset_path : List String) (check_name : String)
deriving DecidableEq

/-- The comparison used by `sorted(keys, key=lambda key: key.to_string())`, parametric in
the external `to_string` serializer (not under src/). -/
def key_le (to_string : AssetGraphKey → String) (a b : AssetGraphKey) : Prop :=
  to_string a ≤ to_string b

instance key_le_decidable (ts : AssetGraphKey → String) : DecidableRel (key_le ts) :=
  fun a b => inferInstanceAs (Decidable (ts a ≤ ts b))

/-- `unique_id_from_key` (src lines 28-35), parametric in the external serializers
`to_string` (the sort key), `str` (`py_str`, used for the joined payload) and the digest
`non_secure_md5_hash_str` (`md5_hex`, whose hex digest has 32 characters): sort the keys by
`to_string`, join their `str` forms with `","`, hash, and keep the first 8 characters. -/
def unique_id_from_key (to_string : AssetGraphKey → String) (py_str : AssetGraphKey → List Char)
    (md5_hex : List Char → List Char) (keys : List AssetGraphKey) : List Char :=
  let sorted_keys := keys.insertionSort (key_le to_string)
  (md5_hex (List.intercalate [','] (sorted_keys.map py_str))).take 8

/-- An `AssetSpec`/`AssetCheckSpec` as consumed by `op_name`: its key, plus the rest of the
spec's payload (which `op_name` never reads). -/
structure SectionSpec where
  key : AssetGraphKey
  payload : Nat
deriving DecidableEq

/-- `ExecutableAssetGraphSection.op_name` (src lines 74-76):
`unique_id_from_key([spec.key for spec in self.specs])`. -/
def op_name (to_string : AssetGraphKey → String) (py_str : AssetGraphKey → List Char)
    (md5_hex : List Char → List Char) (specs : List SectionSpec) : List Char :=
  unique_id_from_key to_string py_str md5_hex (specs.map SectionSpec.key)

/-- Concrete REQUESTED backfill used in witnesses. -/
def requested_backfill : PartitionBackfill :=
  ⟨1, BulkActionStatus.REQUESTED, none, true⟩

/-- Concrete COMPLETED backfill used in witnesses. -/
def completed_backfill : PartitionBackfill :=
  ⟨2, BulkActionStatus.COMPLETED, none, true⟩

/-- Concrete context whose only selected asset is not time-window partitioned. -/
def static_partitioned_ctx : FreshnessCheckCtx :=
  ⟨[4], fun _ => PartitionsDefModel.nonTimeWindow, fun _ _ => none, 0, 0⟩

/-- Concrete daily-partitioned context with a quiet logger. -/
def daily_ctx_quiet : FreshnessCheckCtx :=
  ⟨[4], fun _ => PartitionsDefModel.dailyMidnightUTC,
    fun _ p => if p = some 345600 then some ⟨some 400000⟩ else none, 500000, 0⟩

/-- The same snapshot as `daily_ctx_quiet` but with a different logger verbosity. -/
def daily_ctx_verbose : FreshnessCheckCtx :=
  ⟨[4], fun _ => PartitionsDefModel.dailyMidnightUTC,
    fun _ p => if p = some 345600 then some ⟨some 400000⟩ else none, 500000, 9⟩

/-- A concrete cron validator accepting exactly the daily "0 9 * * *" expression. -/
def sample_cron_validator : String → Bool :=
  fun s => decide (s = "0 9 * * *")

/-- A concrete two-field subclass with a slash-free namespace (like `TableMetadataSet`). -/
def two_field_class : MetadataSetClass :=
  ⟨['d', 'g'], [['a'], ['b']], fun _ => [PyType.rawT 0, PyType.wrappedT 1]⟩

/-- A well-formed instance of `two_field_class` with one set field and one `None` field. -/
def two_field_instance : MetadataSetInstance :=
  [(['a'], some (PyVal.wrapped 1 5)), (['b'], none)]

/-- A metadata mapping holding one foreign entry and one entry of `two_field_class`. -/
def stray_metadata : List (List Char × PyVal) :=
  [(['z'], PyVal.raw 0 1), (['d', 'g', '/', 'a'], PyVal.raw 0 2)]

instance key_le_total (ts : AssetGraphKey → String) : IsTotal AssetGraphKey (key_le ts) :=
  ⟨fun a b => le_total (ts a) (ts b)⟩

instance key_le_trans (ts : AssetGraphKey → String) : IsTrans AssetGraphKey (key_le ts) :=
  ⟨fun _ _ _ h1 h2 => le_trans h1 h2⟩

/-- A concrete `to_string` serializer for witnesses. -/
def sample_to_string : AssetGraphKey → String := fun k =>
  match k with
  | AssetGraphKey.assetK p => String.intercalate "," p
  | AssetGraphKey.checkK p n => String.intercalate "," p ++ ":" ++ n

/-- A concrete `str` serializer for witnesses. -/
def sample_py_str : AssetGraphKey → List Char := fun k =>
  match k with
  | AssetGraphKey.assetK p => (String.intercalate "," p).data
  | AssetGraphKey.checkK p n => (String.intercalate "," p).data ++ ':' :: n.data

/-- A stand-in digest with the md5 hex-digest length, for witnesses. -/
def constant_digest : List Char → List Char := fun _ => List.replicate 32 'a'

/-! ### Theorems -/

/-- C1: if an unhandled exception is raised during one backfill's iteration in
`execute_backfill_jobs`, that backfill's persisted record is updated to status FAILED with
the captured error, the exception does not propagate (the loop returns normally, yielding
the error info), and the remaining backfills in the sequence are processed exactly as a
pass over them would be. -/
theorem execute_backfill_jobs_isolates_failure (itA itJ : BackfillIterateFn) (store : Store)
    (j : PartitionBackfill) (rest : List PartitionBackfill) (outs : BackfillIterOut)
    (sErr : Store) (e : ErrInfo)
    (hid : (store j.backfill_id).backfill_id = j.backfill_id)
    (h : (if (store j.backfill_id).is_asset_backfill then itA (store j.backfill_id) store
          else itJ (store j.backfill_id) store) = (outs, Except.error (sErr, e))) :
    execute_backfill_jobs itA itJ store (j :: rest)
      = ((execute_backfill_jobs itA itJ
            (update_backfill sErr
              (with_error (with_status (store j.backfill_id) BulkActionStatus.FAILED) e))
            rest).1,
          outs ++ some e ::
            (execute_backfill_jobs itA itJ
              (update_backfill sErr
                (with_error (with_status (store j.backfill_id) BulkActionStatus.FAILED) e))
              rest).2)
    ∧ update_backfill sErr
        (with_error (with_status (store j.backfill_id) BulkActionStatus.FAILED) e)
        j.backfill_id
        = with_error (with_status (store j.backfill_id) BulkActionStatus.FAILED) e
    ∧ (with_error (with_status (store j.backfill_id) BulkActionStatus.FAILED) e).status
        = BulkActionStatus.FAILED
    ∧ (with_error (with_status (store j.backfill_id) BulkActionStatus.FAILED) e).error
        = some e := by
  refine ⟨?_, ?_, rfl, rfl⟩
  · simp only [execute_backfill_jobs, h]
  · simp [update_backfill, with_error, with_status, hid]

theorem execute_backfill_jobs_isolates_failure_witness :
    execute_backfill_jobs always_raising_iteration always_raising_iteration canceling_store
        (canceling_backfill :: [])
      = ((execute_backfill_jobs always_raising_iteration always_raising_iteration
            (update_backfill canceling_store
              (with_error
                (with_status (canceling_store canceling_backfill.backfill_id)
                  BulkActionStatus.FAILED) 3))
            []).1,
          [] ++ some 3 ::
            (execute_backfill_jobs always_raising_iteration always_raising_iteration
              (update_backfill canceling_store
                (with_error
                  (with_status (canceling_store canceling_backfill.backfill_id)
                    BulkActionStatus.FAILED) 3))
              []).2)
    ∧ update_backfill canceling_store
        (with_error
          (with_status (canceling_store canceling_backfill.backfill_id)
            BulkActionStatus.FAILED) 3)
        canceling_backfill.backfill_id
        = with_error
            (with_status (canceling_store canceling_backfill.backfill_id)
              BulkActionStatus.FAILED) 3
    ∧ (with_error
        (with_status (canceling_store canceling_backfill.backfill_id)
          BulkActionStatus.FAILED) 3).status = BulkActionStatus.FAILED
    ∧ (with_error
        (with_status (canceling_store canceling_backfill.backfill_id)
          BulkActionStatus.FAILED) 3).error = some 3 :=
  execute_backfill_jobs_isolates_failure always_raising_iteration always_raising_iteration
    canceling_store canceling_backfill [] [] canceling_store 3 rfl rfl

/-- C2 counterexample: a backfill whose persisted status is CANCELING at the start of its
iteration is moved to FAILED — not CANCELED — by the `except` handler of
`execute_backfill_jobs` when its iteration raises an unhandled exception, refuting the
claim that a CANCELING backfill is only ever transitioned to CANCELED. -/
theorem canceling_backfill_moved_to_failed_counterexample :
    canceling_backfill.status = BulkActionStatus.CANCELING
    ∧ ((execute_backfill_jobs always_raising_iteration always_raising_iteration
          canceling_store [canceling_backfill]).1 canceling_backfill.backfill_id).status
        = BulkActionStatus.FAILED
    ∧ BulkActionStatus.FAILED ≠ BulkActionStatus.CANCELED := by
  refine ⟨rfl, rfl, by decide⟩

/-- C2 (amended): a backfill whose persisted status is CANCELING at the start of its
iteration, and whose iteration completes without an unhandled exception, is transitioned by
the executor only to CANCELED — reached exactly when no runs remain outstanding, and
otherwise it stays CANCELING; in particular it is never moved to FAILED. (The unamended
claim fails when the iteration raises: see the counterexample.) -/
theorem canceling_backfill_only_cancels (outstanding : Nat → Nat) (store : Store)
    (b : PartitionBackfill)
    (hid : (store b.backfill_id).backfill_id = b.backfill_id)
    (h : (store b.backfill_id).status = BulkActionStatus.CANCELING) :
    ((execute_backfill_jobs (asset_backfill_iteration_model outstanding)
        (asset_backfill_iteration_model outstanding) store [b]).1 b.backfill_id).status
      = (if outstanding b.backfill_id = 0 then BulkActionStatus.CANCELED
          else BulkActionStatus.CANCELING)
    ∧ ((execute_backfill_jobs (asset_backfill_iteration_model outstanding)
        (asset_backfill_iteration_model outstanding) store [b]).1 b.backfill_id).status
        ≠ BulkActionStatus.FAILED := by
  by_cases hout : outstanding b.backfill_id = 0
  · have : ((execute_backfill_jobs (asset_backfill_iteration_model outstanding)
        (asset_backfill_iteration_model outstanding) store [b]).1 b.backfill_id).status
        = BulkActionStatus.CANCELED := by
      simp [execute_backfill_jobs, asset_backfill_iteration_model, h, hid, hout,
        update_backfill, with_status]
    simp [this, hout]
  · have : ((execute_backfill_jobs (asset_backfill_iteration_model outstanding)
        (asset_backfill_iteration_model outstanding) store [b]).1 b.backfill_id).status
        = BulkActionStatus.CANCELING := by
      simp [execute_backfill_jobs, asset_backfill_iteration_model, h, hid, hout,
        update_backfill, with_status]
    simp [this, hout]

theorem canceling_backfill_only_cancels_witness :
    ((execute_backfill_jobs (asset_backfill_iteration_model (fun _ => 0))
        (asset_backfill_iteration_model (fun _ => 0)) canceling_store
        [canceling_backfill]).1 canceling_backfill.backfill_id).status
      = (if (fun (_ : Nat) => 0) canceling_backfill.backfill_id = 0
          then BulkActionStatus.CANCELED else BulkActionStatus.CANCELING)
    ∧ ((execute_backfill_jobs (asset_backfill_iteration_model (fun _ => 0))
        (asset_backfill_iteration_model (fun _ => 0)) canceling_store
        [canceling_backfill]).1 canceling_backfill.backfill_id).status
        ≠ BulkActionStatus.FAILED :=
  canceling_backfill_only_cancels (fun _ => 0) canceling_store canceling_backfill rfl rfl

/-- C3: a pass of `execute_backfill_iteration` selects exactly the backfills persisted as
REQUESTED or CANCELING; a backfill in a terminal status (COMPLETED,
COMPLETED_WITH_FAILURES, FAILED, CANCELED) is never part of the pass's job list. -/
theorem backfill_pass_selects_requested_or_canceling :
    (∀ (backfills : List PartitionBackfill) (b : PartitionBackfill),
        b ∈ backfill_jobs_for_pass backfills →
        b.status = BulkActionStatus.REQUESTED ∨ b.status = BulkActionStatus.CANCELING)
    ∧ (∀ (backfills : List PartitionBackfill) (b : PartitionBackfill),
        b.status = BulkActionStatus.COMPLETED
          ∨ b.status = BulkActionStatus.COMPLETED_WITH_FAILURES
          ∨ b.status = BulkActionStatus.FAILED
          ∨ b.status = BulkActionStatus.CANCELED →
        b ∉ backfill_jobs_for_pass backfills) := by
  have hsel : ∀ (backfills : List PartitionBackfill) (b : PartitionBackfill),
      b ∈ backfill_jobs_for_pass backfills →
      b.status = BulkActionStatus.REQUESTED ∨ b.status = BulkActionStatus.CANCELING := by
    intro backfills b hb
    simp only [backfill_jobs_for_pass, get_backfills, List.mem_append, List.mem_filter,
      decide_eq_true_eq] at hb
    rcases hb with ⟨-, h⟩ | ⟨-, h⟩
    · exact Or.inl h
    · exact Or.inr h
  refine ⟨hsel, ?_⟩
  intro backfills b hb hmem
  rcases hsel backfills b hmem with h | h <;> rcases hb with h2 | h2 | h2 | h2 <;>
    rw [h] at h2 <;> exact BulkActionStatus.noConfusion h2

theorem backfill_pass_selects_requested_or_canceling_witness :
    (requested_backfill.status = BulkActionStatus.REQUESTED
      ∨ requested_backfill.status = BulkActionStatus.CANCELING)
    ∧ completed_backfill ∉
        backfill_jobs_for_pass [requested_backfill, completed_backfill] :=
  ⟨backfill_pass_selects_requested_or_canceling.1
      [requested_backfill, completed_backfill] requested_backfill (by decide),
    backfill_pass_selects_requested_or_canceling.2
      [requested_backfill, completed_backfill] completed_backfill (by decide)⟩

/-- C7: each turn of the `execute_backfill_jobs` loop re-reads the backfill's persisted
record by id from the current state and dispatches on that freshly fetched record: the
turn's behavior is `process_backfill_job` applied to `store j.backfill_id`, and the result
of the whole loop depends on the supplied job snapshots only through their backfill ids —
so a status change (such as an externally requested cancellation) persisted after the
pass's load is observed at the backfill's turn. -/
theorem backfill_iteration_refetches_record :
    (∀ (itA itJ : BackfillIterateFn) (store : Store) (j : PartitionBackfill)
        (rest : List PartitionBackfill),
        execute_backfill_jobs itA itJ store (j :: rest)
          = process_backfill_job itA itJ store (store j.backfill_id) rest)
    ∧ (∀ (itA itJ : BackfillIterateFn) (store : Store)
        (jobs jobs2 : List PartitionBackfill),
        jobs.map PartitionBackfill.backfill_id = jobs2.map PartitionBackfill.backfill_id →
        execute_backfill_jobs itA itJ store jobs
          = execute_backfill_jobs itA itJ store jobs2) := by
  constructor
  · intro itA itJ store j rest
    rfl
  · intro itA itJ store jobs
    induction jobs generalizing store with
    | nil =>
      intro jobs2 h
      cases jobs2 with
      | nil => rfl
      | cons j2 rest2 => simp at h
    | cons j rest ih =>
      intro jobs2 h
      cases jobs2 with
      | nil => simp at h
      | cons j2 rest2 =>
        simp only [List.map_cons, List.cons.injEq] at h
        obtain ⟨h1, h2⟩ := h
        simp only [execute_backfill_jobs, h1]
        rcases hstep : (if (store j2.backfill_id).is_asset_backfill
            then itA (store j2.backfill_id) store
            else itJ (store j2.backfill_id) store) with ⟨outs, res⟩
        cases res with
        | ok s1 => simp [ih s1 rest2 h2]
        | error se => simp [ih _ rest2 h2]

theorem backfill_iteration_refetches_record_witness :
    execute_backfill_jobs always_raising_iteration always_raising_iteration canceling_store
        [canceling_backfill]
      = process_backfill_job always_raising_iteration always_raising_iteration
          canceling_store (canceling_store canceling_backfill.backfill_id) []
    ∧ execute_backfill_jobs always_raising_iteration always_raising_iteration canceling_store
        [⟨7, BulkActionStatus.REQUESTED, none, true⟩]
      = execute_backfill_jobs always_raising_iteration always_raising_iteration
          canceling_store [canceling_backfill] :=
  ⟨backfill_iteration_refetches_record.1 always_raising_iteration always_raising_iteration
      canceling_store canceling_backfill [],
    backfill_iteration_refetches_record.2 always_raising_iteration always_raising_iteration
      canceling_store [⟨7, BulkActionStatus.REQUESTED, none, true⟩] [canceling_backfill]
      (by decide)⟩

/-- C4: for the daily cron "0 9 * * *" in UTC over a daily-partitioned asset, at 09:00:01
UTC on day D the latest completed cron tick is 09:00 on day D and the expected partition is
day D−1's window; at 08:59:59 UTC on day D the latest completed tick is 09:00 on day D−1
and the expected partition is day D−2's window (the tick boundary counts as passed). -/
theorem daily_cron_expected_partition (D : Nat) (hD : 2 ≤ D) :
    latest_completed_daily9_tick (D * 86400 + 32401) = D * 86400 + 32400
    ∧ latest_completed_daily9_tick (D * 86400 + 32400) = D * 86400 + 32400
    ∧ latest_completed_daily9_tick (D * 86400 + 32399) = (D - 1) * 86400 + 32400
    ∧ prev_daily_partition_window (D * 86400 + 32400) = ((D - 1) * 86400, D * 86400)
    ∧ expected_partition_start (D * 86400 + 32401) = (D - 1) * 86400
    ∧ expected_partition_start (D * 86400 + 32399) = (D - 2) * 86400 := by
  have e1 : (D * 86400 + 32401) % 86400 = 32401 := by omega
  have e0 : (D * 86400 + 32400) % 86400 = 32400 := by omega
  have e2 : (D * 86400 + 32399) % 86400 = 32399 := by omega
  refine ⟨?_, ?_, ?_, ?_, ?_, ?_⟩
  · simp only [latest_completed_daily9_tick, e1]
    rw [if_pos (by omega)]
    omega
  · simp only [latest_completed_daily9_tick, e0]
    rw [if_pos (by omega)]
    omega
  · simp only [latest_completed_daily9_tick, e2]
    rw [if_neg (by omega)]
    omega
  · simp only [prev_daily_partition_window, Prod.mk.injEq]
    constructor <;> omega
  · simp only [expected_partition_start, latest_completed_daily9_tick,
      prev_daily_partition_window, e1]
    rw [if_pos (by omega)]
    omega
  · simp only [expected_partition_start, latest_completed_daily9_tick,
      prev_daily_partition_window, e2]
    rw [if_neg (by omega)]
    omega

theorem daily_cron_expected_partition_witness :
    latest_completed_daily9_tick (5 * 86400 + 32401) = 5 * 86400 + 32400
    ∧ latest_completed_daily9_tick (5 * 86400 + 32400) = 5 * 86400 + 32400
    ∧ latest_completed_daily9_tick (5 * 86400 + 32399) = (5 - 1) * 86400 + 32400
    ∧ prev_daily_partition_window (5 * 86400 + 32400) = ((5 - 1) * 86400, 5 * 86400)
    ∧ expected_partition_start (5 * 86400 + 32401) = (5 - 1) * 86400
    ∧ expected_partition_start (5 * 86400 + 32399) = (5 - 2) * 86400 :=
  daily_cron_expected_partition 5 (by norm_num)

/-- C5: executing the time-partition freshness check set against a selection containing an
asset whose partitions definition is not time-window based raises an error (the
`check.inst` failure) instead of returning the pass/fail results. -/
theorem non_time_window_freshness_check_errors (latestTick nextTick : Nat → Nat)
    (timezone cron : String) (severity : Nat) (ctx : FreshnessCheckCtx) (k : Nat)
    (hk : k ∈ ctx.selected) (hp : ctx.pdef k = PartitionsDefModel.nonTimeWindow) :
    ∃ e, freshness_check_set_execute latestTick nextTick timezone cron severity ctx
      = Except.error e := by
  have main : ∀ keys : List Nat, k ∈ keys →
      ∃ e, freshness_execute_keys latestTick nextTick timezone cron severity ctx keys
        = Except.error e := by
    intro keys
    induction keys with
    | nil => intro h; cases h
    | cons a rest ih =>
      intro h
      by_cases hak : a = k
      · subst hak
        exact ⟨CheckErr.notTimeWindowPartitioned a,
          by simp [freshness_execute_keys, freshness_check_one, hp]⟩
      · have hk2 : k ∈ rest := by
          rcases List.mem_cons.mp h with h1 | h1
          · exact absurd h1.symm hak
          · exact h1
        obtain ⟨e, he⟩ := ih hk2
        cases hhead : freshness_check_one latestTick nextTick timezone cron severity ctx a with
        | error e2 => exact ⟨e2, by simp [freshness_execute_keys, hhead]⟩
        | ok r => exact ⟨e, by simp [freshness_execute_keys, hhead, he]⟩
  simpa [freshness_check_set_execute] using main ctx.selected hk

theorem non_time_window_freshness_check_errors_witness :
    ∃ e, freshness_check_set_execute (fun n => n) (fun n => n) "UTC" "0 9 * * *" 0
      static_partitioned_ctx = Except.error e :=
  non_time_window_freshness_check_errors (fun n => n) (fun n => n) "UTC" "0 9 * * *" 0
    static_partitioned_ctx 4 (by decide) rfl

/-- C6: constructing the time-based check with `build_time_partition_freshness_checks`
fails with the invalid-cron error for every cron string the validator rejects, and for
every cron string the validator accepts the construction never produces that error. -/
theorem build_freshness_checks_cron_validation (v : String → Bool) (assets : List Nat)
    (cron timezone : String) (severity : Nat) :
    (v cron = false →
      build_time_partition_freshness_checks v assets (some cron) timezone severity
        = Except.error BuildChecksError.invalidCronString)
    ∧ (v cron = true →
      build_time_partition_freshness_checks v assets (some cron) timezone severity
        ≠ Except.error BuildChecksError.invalidCronString) := by
  constructor
  · intro hv
    simp [build_time_partition_freshness_checks, hv]
  · intro hv
    by_cases hnd : assets.Nodup
    · simp [build_time_partition_freshness_checks, hv, hnd]
    · simp [build_time_partition_freshness_checks, hv, hnd]

theorem build_freshness_checks_cron_validation_witness :
    build_time_partition_freshness_checks sample_cron_validator [1] (some "not a cron")
        "UTC" 0 = Except.error BuildChecksError.invalidCronString
    ∧ build_time_partition_freshness_checks sample_cron_validator [1] (some "0 9 * * *")
        "UTC" 0 ≠ Except.error BuildChecksError.invalidCronString :=
  ⟨(build_freshness_checks_cron_validation sample_cron_validator [1] "not a cron" "UTC" 0).1
      (by decide),
    (build_freshness_checks_cron_validation sample_cron_validator [1] "0 9 * * *" "UTC" 0).2
      (by decide)⟩

/-- C8: the time-partition freshness evaluation is deterministic given a fixed state
snapshot: two executions with the same stored records, the same selected keys, the same
partitions definitions, the same current time and the same construction parameters produce
identical results — identical passed values and identical metadata — even if the advisory
context (the logger) differs. -/
theorem freshness_evaluation_deterministic (latestTick nextTick : Nat → Nat)
    (timezone cron : String) (severity : Nat) (ctx ctx2 : FreshnessCheckCtx)
    (hsel : ctx.selected = ctx2.selected) (hpd : ctx.pdef = ctx2.pdef)
    (hrec : ctx.records = ctx2.records) (hnow : ctx.now = ctx2.now) :
    freshness_check_set_execute latestTick nextTick timezone cron severity ctx
      = freshness_check_set_execute latestTick nextTick timezone cron severity ctx2 := by
  obtain ⟨sel, pd, rec, now, lg⟩ := ctx
  obtain ⟨sel2, pd2, rec2, now2, lg2⟩ := ctx2
  simp only at hsel hpd hrec hnow
  subst hsel hpd hrec hnow
  have hone : ∀ k, freshness_check_one latestTick nextTick timezone cron severity
      ⟨sel, pd, rec, now, lg⟩ k
      = freshness_check_one latestTick nextTick timezone cron severity
        ⟨sel, pd, rec, now, lg2⟩ k := fun _ => rfl
  have main : ∀ keys : List Nat,
      freshness_execute_keys latestTick nextTick timezone cron severity
        ⟨sel, pd, rec, now, lg⟩ keys
      = freshness_execute_keys latestTick nextTick timezone cron severity
        ⟨sel, pd, rec, now, lg2⟩ keys := by
    intro keys
    induction keys with
    | nil => rfl
    | cons k rest ih =>
      simp only [freshness_execute_keys, hone k, ih]
  exact main sel

theorem freshness_evaluation_deterministic_witness :
    freshness_check_set_execute latest_completed_daily9_tick next_daily9_tick "UTC"
        "0 9 * * *" 0 daily_ctx_quiet
      = freshness_check_set_execute latest_completed_daily9_tick next_daily9_tick "UTC"
        "0 9 * * *" 0 daily_ctx_verbose :=
  freshness_evaluation_deterministic latest_completed_daily9_tick next_daily9_tick "UTC"
    "0 9 * * *" 0 daily_ctx_quiet daily_ctx_verbose rfl rfl rfl rfl

theorem split_on_slash_of_no_slash (l : List Char) (h : '/' ∉ l) :
    split_on_slash l = [l] := by
  induction l with
  | nil => rfl
  | cons c t ih =>
    simp only [List.mem_cons, not_or] at h
    have hc : ¬ c = '/' := fun hh => h.1 hh.symm
    simp [split_on_slash, hc, ih h.2]

theorem split_on_slash_append (ns f : List Char) (hns : '/' ∉ ns) :
    split_on_slash (ns ++ '/' :: f) = ns :: split_on_slash f := by
  induction ns with
  | nil => simp [split_on_slash]
  | cons c t ih =>
    simp only [List.mem_cons, not_or] at hns
    have hc : ¬ c = '/' := fun hh => hns.1 hh.symm
    simp [split_on_slash, hc, ih hns.2]

theorem matches_namespaced_key (cls : MetadataSetClass) (f g : List Char)
    (hns : '/' ∉ cls.nspace) (hg : '/' ∉ g) :
    matches_class_field cls f (namespaced_key cls g) = decide (g = f) := by
  simp [matches_class_field, namespaced_key, split_on_slash_append cls.nspace g hns,
    split_on_slash_of_no_slash g hg]

theorem extract_value_of_conformant (cls : MetadataSetClass) (f : List Char) (v : PyVal)
    (h : PyVal.type_of v ∈ cls.ann f) : extract_value cls f v = v := by
  cases v with
  | raw k p => rfl
  | wrapped k p =>
    simp only [PyVal.type_of] at h
    simp only [extract_value]
    rw [if_neg (fun hc => hc.1 h)]

theorem find?_dict_none (cls : MetadataSetClass) (f : List Char) (hns : '/' ∉ cls.nspace) :
    ∀ values : MetadataSetInstance,
    (∀ g ∈ values.map Prod.fst, '/' ∉ g) →
    f ∉ values.map Prod.fst →
    (namespaced_entries cls values).find?
      (fun kv => matches_class_field cls f kv.1) = none := by
  intro values
  induction values with
  | nil => intro _ _; rfl
  | cons fv rest ih =>
    obtain ⟨g, ov⟩ := fv
    intro hflds hf
    simp only [List.map_cons, List.mem_cons, not_or] at hf
    have hgs : '/' ∉ g := hflds g (by simp)
    have hrest : ∀ g2 ∈ rest.map Prod.fst, '/' ∉ g2 := fun g2 h2 => hflds g2 (by simp [h2])
    cases ov with
    | none => simpa [namespaced_entries] using ih hrest hf.2
    | some v =>
      have hmain := ih hrest hf.2
      simp only [namespaced_entries, List.filterMap_cons, Option.map_some'] at hmain ⊢
      rw [List.find?_cons_of_neg]
      · exact hmain
      · simp [matches_namespaced_key cls f g hns hgs]
        exact fun hh => hf.1 hh.symm

theorem extract_dict_aux (cls : MetadataSetClass) (hns : '/' ∉ cls.nspace) :
    ∀ values : MetadataSetInstance,
    (values.map Prod.fst).Nodup →
    (∀ g ∈ values.map Prod.fst, '/' ∉ g) →
    (∀ fv ∈ values, ∀ v, fv.2 = some v → PyVal.type_of v ∈ cls.ann fv.1) →
    (values.map Prod.fst).map (fun f =>
      (f, ((namespaced_entries cls values).find?
            (fun kv => matches_class_field cls f kv.1)).map
        (fun kv => extract_value cls f kv.2))) = values := by
  intro values
  induction values with
  | nil => intro _ _ _; rfl
  | cons fv rest ih =>
    obtain ⟨g, ov⟩ := fv
    intro hnd hflds hconf
    have hgs : '/' ∉ g := hflds g (by simp)
    have hrestf : ∀ g2 ∈ rest.map Prod.fst, '/' ∉ g2 := fun g2 h2 => hflds g2 (by simp [h2])
    rw [List.map_cons] at hnd
    have hndc := List.nodup_cons.mp hnd
    have hgnotr : g ∉ rest.map Prod.fst := hndc.1
    have hndr : (rest.map Prod.fst).Nodup := hndc.2
    have hconfr : ∀ fv2 ∈ rest, ∀ v, fv2.2 = some v → PyVal.type_of v ∈ cls.ann fv2.1 :=
      fun fv2 h2 => hconf fv2 (by simp [h2])
    simp only [List.map_cons, List.cons.injEq]
    constructor
    · cases ov with
      | none =>
        have hnone := find?_dict_none cls g hns rest hrestf hgnotr
        simp only [namespaced_entries, List.filterMap_cons]
        simpa [namespaced_entries] using congrArg (Option.map
          (fun kv : List Char × PyVal => extract_value cls g kv.2)) hnone
      | some v =>
        have hval : PyVal.type_of v ∈ cls.ann g := hconf (g, some v) (by simp) v rfl
        simp only [namespaced_entries, List.filterMap_cons, Option.map_some']
        rw [List.find?_cons_of_pos]
        · simp [extract_value_of_conformant cls g v hval]
        · simp [matches_namespaced_key cls g g hns hgs]
    · have hpt : ∀ f2 ∈ rest.map Prod.fst,
          ((namespaced_entries cls ((g, ov) :: rest)).find?
              (fun kv => matches_class_field cls f2 kv.1))
            = ((namespaced_entries cls rest).find?
              (fun kv => matches_class_field cls f2 kv.1)) := by
        intro f2 hf2
        cases ov with
        | none => simp [namespaced_entries]
        | some v =>
          simp only [namespaced_entries, List.filterMap_cons, Option.map_some']
          rw [List.find?_cons_of_neg]
          simp [matches_namespaced_key cls f2 g hns hgs]
          exact fun hh => hgnotr (hh ▸ hf2)
      calc (rest.map Prod.fst).map (fun f =>
              (f, ((namespaced_entries cls ((g, ov) :: rest)).find?
                    (fun kv => matches_class_field cls f kv.1)).map
                (fun kv => extract_value cls f kv.2)))
          = (rest.map Prod.fst).map (fun f =>
              (f, ((namespaced_entries cls rest).find?
                    (fun kv => matches_class_field cls f kv.1)).map
                (fun kv => extract_value cls f kv.2))) := by
            apply List.map_congr_left
            intro f2 hf2
            rw [hpt f2 hf2]
        _ = rest := ih hndr hrestf hconfr

theorem find?_filter_of_imp {α : Type} (p q : α → Bool)
    (himp : ∀ a, p a = true → q a = true) :
    ∀ l : List α, (l.filter q).find? p = l.find? p := by
  intro l
  induction l with
  | nil => rfl
  | cons a t ih =>
    cases hpa : p a with
    | true =>
      have hqa : q a = true := himp a hpa
      rw [List.filter_cons_of_pos hqa, List.find?_cons_of_pos _ hpa,
        List.find?_cons_of_pos _ hpa]
    | false =>
      cases hqa : q a with
      | true =>
        rw [List.filter_cons_of_pos hqa, List.find?_cons_of_neg _ (by simp [hpa]),
          List.find?_cons_of_neg _ (by simp [hpa]), ih]
      | false =>
        rw [List.filter_cons_of_neg (by simp [hqa]),
          List.find?_cons_of_neg _ (by simp [hpa]), ih]

theorem strip_namespaced_key (ns f : List Char) (hns : '/' ∉ ns) :
    strip_namespace_from_key (ns ++ '/' :: f) = f := by
  induction ns with
  | nil => simp [strip_namespace_from_key]
  | cons c t ih =>
    simp only [List.mem_cons, not_or] at hns
    have hc : ¬ c = '/' := fun hh => hns.1 hh.symm
    simp [strip_namespace_from_key, hc, ih hns.2]

theorem find?_values_of_nodup :
    ∀ values : MetadataSetInstance, (values.map Prod.fst).Nodup →
    ∀ (f : List Char) (ov : Option PyVal), (f, ov) ∈ values →
    values.find? (fun fv => decide (fv.1 = f)) = some (f, ov) := by
  intro values
  induction values with
  | nil =>
    intro _ f ov h
    cases h
  | cons a rest ih =>
    intro hnd f ov hmem
    rw [List.map_cons] at hnd
    have hc := List.nodup_cons.mp hnd
    rcases List.mem_cons.mp hmem with h | h
    · cases h
      rw [List.find?_cons_of_pos _ (by simp)]
    · have hne : ¬ a.1 = f := by
        intro hh
        exact hc.1 (hh ▸ List.mem_map.mpr ⟨(f, ov), h, rfl⟩)
      rw [List.find?_cons_of_neg _ (by simp [hne])]
      exact ih hc.2 f ov h

theorem dict_entries_ok (cls : MetadataSetClass) (values : MetadataSetInstance)
    (hns : '/' ∉ cls.nspace) (hnd : (values.map Prod.fst).Nodup) :
    ∀ l : List (List Char × Option PyVal), (∀ fv ∈ l, fv ∈ values) →
    metadata_set_dict_entries cls values l = Except.ok (namespaced_entries cls l) := by
  intro l
  induction l with
  | nil => intro _; rfl
  | cons a rest ih =>
    intro hsub
    obtain ⟨f, ov⟩ := a
    have hrest : ∀ fv ∈ rest, fv ∈ values := fun fv h => hsub fv (by simp [h])
    cases ov with
    | none =>
      simpa [metadata_set_dict_entries, namespaced_entries] using ih hrest
    | some v =>
      have hmem : (f, some v) ∈ values := hsub (f, some v) (by simp)
      have hstrip : strip_namespace_from_key (namespaced_key cls f) = f :=
        strip_namespaced_key cls.nspace f hns
      have hfind := find?_values_of_nodup values hnd f (some v) hmem
      simp only [metadata_set_dict_entries, metadata_set_getattr, namespaced_key] at hstrip ⊢
      simp only [hstrip]
      rw [hfind, ih hrest]
      simp [namespaced_entries, namespaced_key]

/-- C9 (amended): for every instance of a `NamespacedMetadataSet` subclass whose namespace
contains no "/" character, `dict(m)` evaluates without error to the `namespace/field`
entries of the non-`None` fields and `extract(dict(m)) == m` — field names are Python
identifiers and so slash-free, the declared fields are distinct, and pydantic validation
keeps stored values conformant to the field annotations, all stated as hypotheses;
moreover, unconditionally, `extract` ignores every entry of the input mapping whose key is
not of the form `<namespace>/<field>` with `<field>` one of the class's declared fields.
(The unamended claim fails for a subclass whose namespace itself contains "/": there
`dict(m)` raises `AttributeError`, see the counterexample.) -/
theorem metadata_set_extract_roundtrip :
    (∀ (cls : MetadataSetClass) (values : MetadataSetInstance),
      values.map Prod.fst = cls.field_names →
      cls.field_names.Nodup →
      '/' ∉ cls.nspace →
      (∀ g ∈ cls.field_names, '/' ∉ g) →
      (∀ fv ∈ values, ∀ v, fv.2 = some v → PyVal.type_of v ∈ cls.ann fv.1) →
      metadata_set_to_dict cls values = Except.ok (namespaced_entries cls values)
      ∧ extract cls (namespaced_entries cls values) = values)
    ∧ (∀ (cls : MetadataSetClass) (metadata : List (List Char × PyVal)),
      extract cls metadata
        = extract cls (metadata.filter
            (fun kv => cls.field_names.any (fun f => matches_class_field cls f kv.1)))) := by
  constructor
  · intro cls values hwf hnodup hns hflds hconf
    have hnd2 : (values.map Prod.fst).Nodup := by rw [hwf]; exact hnodup
    have hflds2 : ∀ g ∈ values.map Prod.fst, '/' ∉ g := by rw [hwf]; exact hflds
    constructor
    · exact dict_entries_ok cls values hns hnd2 values (fun _ h => h)
    · have := extract_dict_aux cls hns values hnd2 hflds2 hconf
      simp only [extract]
      rw [← hwf]
      exact this
  · intro cls metadata
    simp only [extract]
    apply List.map_congr_left
    intro f hf
    rw [find?_filter_of_imp
      (fun kv => matches_class_field cls f kv.1)
      (fun kv => cls.field_names.any (fun f2 => matches_class_field cls f2 kv.1))
      (fun kv hkv => List.any_eq_true.mpr ⟨f, hf, hkv⟩) metadata]

/-- C9 counterexample: for a subclass whose `namespace()` contains a "/" — which nothing in
the code forbids — the round trip fails on a fully well-formed instance, because `dict(m)`
itself raises: `keys()` produces the key `"a/b/x"`, `__getitem__` strips everything up to
the first `"/"` leaving `"b/x"`, and `getattr(self, "b/x")` raises `AttributeError`, so
`extract(dict(m)) == m` never gets a mapping to evaluate. All the other prerequisites of
the round trip (distinct slash-free field names, conformant stored value) hold here. -/
theorem metadata_set_extract_roundtrip_counterexample :
    metadata_set_to_dict slash_namespace_class slash_namespace_instance = Except.error ()
    ∧ slash_namespace_instance.map Prod.fst = slash_namespace_class.field_names
    ∧ slash_namespace_class.field_names.Nodup
    ∧ (∀ g ∈ slash_namespace_class.field_names, '/' ∉ g)
    ∧ PyVal.type_of (PyVal.raw 0 0) ∈ slash_namespace_class.ann ['x'] := by
  refine ⟨rfl, by decide, by decide, by decide, by decide⟩

theorem metadata_set_extract_roundtrip_witness :
    metadata_set_to_dict two_field_class two_field_instance
        = Except.ok (namespaced_entries two_field_class two_field_instance)
    ∧ extract two_field_class (namespaced_entries two_field_class two_field_instance)
        = two_field_instance
    ∧ extract two_field_class stray_metadata
        = extract two_field_class (stray_metadata.filter
            (fun kv => two_field_class.field_names.any
              (fun f => matches_class_field two_field_class f kv.1))) :=
  ⟨(metadata_set_extract_roundtrip.1 two_field_class two_field_instance rfl (by decide)
      (by decide) (by decide)
      (by
        intro fv hfv v hv
        rcases List.mem_cons.mp hfv with h | h
        · subst h
          simp only [Option.some.injEq] at hv
          subst hv
          decide
        · rcases List.mem_cons.mp h with h2 | h2
          · subst h2
            exact absurd hv (by simp)
          · cases h2)).1,
    (metadata_set_extract_roundtrip.1 two_field_class two_field_instance rfl (by decide)
      (by decide) (by decide)
      (by
        intro fv hfv v hv
        rcases List.mem_cons.mp hfv with h | h
        · subst h
          simp only [Option.some.injEq] at hv
          subst hv
          decide
        · rcases List.mem_cons.mp h with h2 | h2
          · subst h2
            exact absurd hv (by simp)
          · cases h2)).2,
    metadata_set_extract_roundtrip.2 two_field_class stray_metadata⟩

theorem eq_of_perm_of_sorted_antisymm_on {α : Type} {r : α → α → Prop} :
    ∀ (l1 : List α), ∀ {l2 : List α},
    (∀ a ∈ l1, ∀ b ∈ l1, r a b → r b a → a = b) →
    List.Perm l1 l2 → List.Sorted r l1 → List.Sorted r l2 → l1 = l2 := by
  intro l1
  induction l1 with
  | nil =>
    intro l2 _ hp _ _
    exact hp.nil_eq
  | cons a t ih =>
    intro l2 hanti hp hs1 hs2
    cases l2 with
    | nil => exact absurd hp.eq_nil (by simp)
    | cons b t2 =>
      have hab : a = b := by
        by_cases h : a = b
        · exact h
        · have hbin1 : b ∈ a :: t := hp.symm.subset (List.mem_cons_self b t2)
          have hain2 : a ∈ b :: t2 := hp.subset (List.mem_cons_self a t)
          have hbt : b ∈ t := by
            rcases List.mem_cons.mp hbin1 with h1 | h1
            · exact absurd h1.symm h
            · exact h1
          have hat2 : a ∈ t2 := by
            rcases List.mem_cons.mp hain2 with h1 | h1
            · exact absurd h1 h
            · exact h1
          have hrab : r a b := List.rel_of_sorted_cons hs1 b hbt
          have hrba : r b a := List.rel_of_sorted_cons hs2 a hat2
          exact hanti a (List.mem_cons_self a t) b (List.mem_cons_of_mem a hbt) hrab hrba
      subst hab
      have hp2 : List.Perm t t2 := hp.cons_inv
      have hanti2 : ∀ x ∈ t, ∀ y ∈ t, r x y → r y x → x = y :=
        fun x hx y hy => hanti x (List.mem_cons_of_mem a hx) y (List.mem_cons_of_mem a hy)
      rw [ih hanti2 hp2 hs1.of_cons hs2.of_cons]

theorem insertionSort_eq_of_perm (ts : AssetGraphKey → String)
    (keys keys2 : List AssetGraphKey) (hperm : List.Perm keys keys2)
    (hanti : ∀ a ∈ keys, ∀ b ∈ keys, ts a = ts b → a = b) :
    keys.insertionSort (key_le ts) = keys2.insertionSort (key_le ts) := by
  apply eq_of_perm_of_sorted_antisymm_on (r := key_le ts)
  · intro a ha b hb hab hba
    have ha2 : a ∈ keys := (List.perm_insertionSort (key_le ts) keys).subset ha
    have hb2 : b ∈ keys := (List.perm_insertionSort (key_le ts) keys).subset hb
    exact hanti a ha2 b hb2 (le_antisymm hab hba)
  · exact ((List.perm_insertionSort (key_le ts) keys).trans hperm).trans
      (List.perm_insertionSort (key_le ts) keys2).symm
  · exact List.sorted_insertionSort (key_le ts) keys
  · exact List.sorted_insertionSort (key_le ts) keys2

/-- C10: with the keys' `to_string` serializer injective on the given keys (as the real
serializers are), `unique_id_from_key` gives the same identifier for every permutation of a
key sequence — it sorts the keys before hashing — and, since the md5 hex digest has 32
characters, the identifier always has exactly 8 characters; consequently a section's
`op_name` does not depend on the order of its specs. -/
theorem unique_id_order_independent (ts : AssetGraphKey → String)
    (ps : AssetGraphKey → List Char) (md5 : List Char → List Char)
    (h32 : ∀ s, (md5 s).length = 32) :
    (∀ keys keys2 : List AssetGraphKey,
      List.Perm keys keys2 →
      (∀ a ∈ keys, ∀ b ∈ keys, ts a = ts b → a = b) →
      unique_id_from_key ts ps md5 keys = unique_id_from_key ts ps md5 keys2)
    ∧ (∀ keys : List AssetGraphKey, keys ≠ [] →
        (unique_id_from_key ts ps md5 keys).length = 8)
    ∧ (∀ specs specs2 : List SectionSpec,
      List.Perm specs specs2 →
      (∀ a ∈ specs.map SectionSpec.key, ∀ b ∈ specs.map SectionSpec.key,
        ts a = ts b → a = b) →
      op_name ts ps md5 specs = op_name ts ps md5 specs2) := by
  have huid : ∀ keys keys2 : List AssetGraphKey,
      List.Perm keys keys2 →
      (∀ a ∈ keys, ∀ b ∈ keys, ts a = ts b → a = b) →
      unique_id_from_key ts ps md5 keys = unique_id_from_key ts ps md5 keys2 := by
    intro keys keys2 hp hanti
    simp only [unique_id_from_key]
    rw [insertionSort_eq_of_perm ts keys keys2 hp hanti]
  refine ⟨huid, ?_, ?_⟩
  · intro keys _
    simp only [unique_id_from_key]
    rw [List.length_take, h32]
    omega
  · intro specs specs2 hp hanti
    simp only [op_name]
    exact huid (specs.map SectionSpec.key) (specs2.map SectionSpec.key)
      (hp.map SectionSpec.key) hanti

theorem unique_id_order_independent_witness :
    unique_id_from_key sample_to_string sample_py_str constant_digest
        [AssetGraphKey.assetK ["a"], AssetGraphKey.checkK ["a"] "c"]
      = unique_id_from_key sample_to_string sample_py_str constant_digest
        [AssetGraphKey.checkK ["a"] "c", AssetGraphKey.assetK ["a"]]
    ∧ (unique_id_from_key sample_to_string sample_py_str constant_digest
        [AssetGraphKey.assetK ["a"], AssetGraphKey.checkK ["a"] "c"]).length = 8 :=
  ⟨(unique_id_order_independent sample_to_string sample_py_str constant_digest
      (fun _ => List.length_replicate 32 'a')).1
      [AssetGraphKey.assetK ["a"], AssetGraphKey.checkK ["a"] "c"]
      [AssetGraphKey.checkK ["a"] "c", AssetGraphKey.assetK ["a"]]
      (by decide) (by decide),
    (unique_id_order_independent sample_to_string sample_py_str constant_digest
      (fun _ => List.length_replicate 32 'a')).2.1
      [AssetGraphKey.assetK ["a"], AssetGraphKey.checkK ["a"] "c"] (by decide)⟩
